import Mathlib

/-!
# Verification of the `pauza` idle-time monitor

Shallow embedding of the core of `src/main.rs` (the `monitor_idle_time`
loop and its `Event` type) and of `get_idle_time` from `src/windows.rs`.

Durations are modelled as natural numbers of milliseconds (Rust's
`Duration` comparisons on these values are order-isomorphic to `Nat`
comparisons).  Each loop iteration is modelled by `tick`, which takes the
current monitor state, the value of the monotonic clock `now` at this
iteration (all `Instant::now()` / `start.elapsed()` readings within one
iteration are identified), and the probe result, and returns the new
state together with the list of events sent on the channel, in emission
order.
-/

namespace Pauza

/-- `IDLE_PAUSE_TIME = Duration::from_secs(60)`, in milliseconds. -/
def IDLE_PAUSE_TIME : Nat := 60000

/-- `IDLE_RESET_TIME = Duration::from_secs(300)`, in milliseconds. -/
def IDLE_RESET_TIME : Nat := 300000

/-- `BREAK_TIME = Duration::from_secs(2700)`, in milliseconds. -/
def BREAK_TIME : Nat := 2700000

/-- The `Event` enum from `src/main.rs`. -/
inductive Event where
  | UpdateTime (elapsed : Nat)
  | NotifyBreak
  | NotifyReset
deriving DecidableEq, Repr

/-- The mutable local state of `monitor_idle_time`:
`start`, `has_reset`, `has_break`. -/
structure MonitorState where
  start : Nat
  has_reset : Bool
  has_break : Bool
deriving DecidableEq, Repr

/-- One iteration of the `loop` in `monitor_idle_time` (`src/main.rs`
lines 36-63): match on the probe result, compare against the thresholds,
update the state and send events.  `now` is the monotonic clock value at
this iteration, so `start.elapsed()` is `now - start`. -/
def tick (st : MonitorState) (now : Nat) (sample : Except Int Nat) :
    MonitorState × List Event :=
  match sample with
  | Except.ok idle_time =>
    if IDLE_RESET_TIME < idle_time then
      if st.has_reset then
        ({ st with start := now }, [])
      else
        ({ st with has_reset := true, start := now },
          [Event.NotifyReset, Event.UpdateTime 0])
    else if IDLE_PAUSE_TIME < idle_time then
      (st, [])
    else
      let st1 := if st.has_reset then
          { st with start := now, has_reset := false, has_break := false }
        else st
      let elapsed := now - st1.start
      if BREAK_TIME ≤ elapsed then
        if st1.has_break then
          (st1, [Event.UpdateTime elapsed])
        else
          ({ st1 with has_break := true },
            [Event.UpdateTime elapsed, Event.NotifyBreak])
      else
        (st1, [Event.UpdateTime elapsed])
  | Except.error _ => (st, [])

/-- The initialisation of `monitor_idle_time` (lines 31-34): `start` is
set to now, both flags are false, and `UpdateTime(start.elapsed())` is
sent before the loop begins. -/
def monitorInit (now0 : Nat) : MonitorState × List Event :=
  (⟨now0, false, false⟩, [Event.UpdateTime (now0 - now0)])

/-- Run the loop body over a list of `(now, probe result)` pairs,
collecting the emitted events in order. -/
def runFrom (st : MonitorState) :
    List (Nat × Except Int Nat) → MonitorState × List Event
  | [] => (st, [])
  | p :: rest =>
    let r1 := tick st p.1 p.2
    let r2 := runFrom r1.1 rest
    (r2.1, r1.2 ++ r2.2)

/-- Recognises `NotifyReset`. -/
def isResetEv : Event → Bool
  | Event.NotifyReset => true
  | _ => false

/-- Recognises `NotifyBreak`. -/
def isBreakEv : Event → Bool
  | Event.NotifyBreak => true
  | _ => false

/-- Number of `NotifyReset` events in a list. -/
def countReset (evs : List Event) : Nat := evs.countP isResetEv

/-- Number of `NotifyBreak` events in a list. -/
def countBreak (evs : List Event) : Nat := evs.countP isBreakEv

/-- A probe result that classifies the user as active (`Ok` and at most
`IDLE_PAUSE_TIME`). -/
def isActiveSample : Except Int Nat → Bool
  | Except.ok i => decide (i ≤ IDLE_PAUSE_TIME)
  | Except.error _ => false

/-- A probe result that does not start/continue a reset excursion
(`Err`, or `Ok` with idle time at most `IDLE_RESET_TIME`). -/
def noResetSample : Except Int Nat → Bool
  | Except.ok i => decide (i ≤ IDLE_RESET_TIME)
  | Except.error _ => true

/-- A probe result in the "short absence" grace band: `Ok` with idle
time in `(IDLE_PAUSE_TIME, IDLE_RESET_TIME]`. -/
def frozenSample : Except Int Nat → Bool
  | Except.ok i => decide (IDLE_PAUSE_TIME < i) && decide (i ≤ IDLE_RESET_TIME)
  | Except.error _ => false

/-- A probe result that starts or continues a reset excursion: `Ok`
with idle time strictly above `IDLE_RESET_TIME`. -/
def resetSample : Except Int Nat → Bool
  | Except.ok i => decide (IDLE_RESET_TIME < i)
  | Except.error _ => false

/-- An input pair on which the monitor, in a session started at
`start0`, would observe elapsed active time at or above `BREAK_TIME`:
an active sample whose clock value satisfies `BREAK_TIME ≤ now - start0`. -/
def reachesBreakFrom (start0 : Nat) (p : Nat × Except Int Nat) : Bool :=
  isActiveSample p.2 && decide (BREAK_TIME ≤ p.1 - start0)

/-- `2^32`, the modulus of the 32-bit tick counters used by
`GetTickCount` and `LASTINPUTINFO.dwTime`. -/
def UINT32_MOD : Nat := 4294967296

/-- `get_idle_time` from `src/windows.rs` (lines 9-21): if
`GetLastInputInfo` returned 0 the error value is that result; otherwise
the idle time is `tick_count - info.dwTime` computed by wrapping `u32`
subtraction, converted to a millisecond duration.  `tick_count` and
`dwTime` are the two 32-bit counter readings (both below `UINT32_MOD`). -/
def get_idle_time (result : Int) (tick_count dwTime : Nat) : Except Int Nat :=
  if result = 0 then Except.error result
  else Except.ok ((tick_count + UINT32_MOD - dwTime) % UINT32_MOD)

end Pauza

namespace Pauza

/-- Helper: one tick either leaves `start` unchanged or sets it to `now`. -/
theorem tick_start_or (st : MonitorState) (now : Nat) (sample : Except Int Nat) :
    (tick st now sample).1.start = st.start ∨ (tick st now sample).1.start = now := by
  cases sample with
  | error e => exact Or.inl rfl
  | ok i =>
    simp only [tick]
    split_ifs <;> simp

/-- Helper: `countBreak` is additive over append. -/
theorem countBreak_append (l1 l2 : List Event) :
    countBreak (l1 ++ l2) = countBreak l1 + countBreak l2 := by
  simp [countBreak, List.countP_append]

/-- Helper: `countReset` is additive over append. -/
theorem countReset_append (l1 l2 : List Event) :
    countReset (l1 ++ l2) = countReset l1 + countReset l2 := by
  simp [countReset, List.countP_append]

/-- C1: on a successful sample strictly above `IDLE_RESET_TIME`, if
`has_reset` is false the monitor emits `NotifyReset` then `UpdateTime 0`
and sets `has_reset`; and in all cases `start` is reassigned to `now`. -/
theorem C1_reset_tick (st : MonitorState) (now idle : Nat)
    (h : IDLE_RESET_TIME < idle) :
    (st.has_reset = false →
      (tick st now (Except.ok idle)).2 =
        [Event.NotifyReset, Event.UpdateTime 0] ∧
      (tick st now (Except.ok idle)).1.has_reset = true) ∧
    (tick st now (Except.ok idle)).1.start = now := by
  cases hr : st.has_reset <;> simp [tick, h, hr]

theorem C1_reset_tick_witness :
    IDLE_RESET_TIME < 310000 ∧
    (((⟨0, false, false⟩ : MonitorState).has_reset = false →
      (tick ⟨0, false, false⟩ 5000 (Except.ok 310000)).2 =
        [Event.NotifyReset, Event.UpdateTime 0] ∧
      (tick ⟨0, false, false⟩ 5000 (Except.ok 310000)).1.has_reset = true) ∧
    (tick ⟨0, false, false⟩ 5000 (Except.ok 310000)).1.start = 5000) :=
  ⟨by decide, C1_reset_tick ⟨0, false, false⟩ 5000 310000 (by decide)⟩

/-- C6: a successful sample in the band `(IDLE_PAUSE_TIME,
IDLE_RESET_TIME]` emits nothing and leaves the state unchanged, and a
whole run of such samples does the same. -/
theorem C6_frozen_band (st : MonitorState)
    (inputs : List (Nat × Except Int Nat))
    (hband : ∀ p ∈ inputs, frozenSample p.2 = true) :
    runFrom st inputs = (st, []) := by
  induction inputs with
  | nil => rfl
  | cons p rest ih =>
    have hp := hband p (List.mem_cons_self p rest)
    have htick : tick st p.1 p.2 = (st, []) := by
      cases hs : p.2 with
      | ok i =>
        rw [hs] at hp
        simp only [frozenSample, Bool.and_eq_true, decide_eq_true_eq] at hp
        simp [tick, hp.1, Nat.not_lt.mpr hp.2]
      | error e => rfl
    have hrest := ih (fun q hq => hband q (List.mem_cons_of_mem p hq))
    simp [runFrom, htick, hrest]

theorem C6_frozen_band_witness :
    (∀ p ∈ ([(1000, Except.ok 200000), (2000, Except.ok 61000),
             (3000, Except.ok 300000)] : List (Nat × Except Int Nat)),
      frozenSample p.2 = true) ∧
    runFrom ⟨7, true, true⟩
      ([(1000, Except.ok 200000), (2000, Except.ok 61000),
        (3000, Except.ok 300000)] : List (Nat × Except Int Nat)) =
      (⟨7, true, true⟩, []) :=
  ⟨by decide, C6_frozen_band ⟨7, true, true⟩ _ (by decide)⟩

/-- C7: a probe error emits nothing, changes nothing, and the behaviour
does not depend on which error value was returned. -/
theorem C7_probe_error (st : MonitorState) (now : Nat) (e : Int) :
    tick st now (Except.error e) = (st, []) ∧
    ∀ e2 : Int, tick st now (Except.error e) = tick st now (Except.error e2) := by
  exact ⟨rfl, fun _ => rfl⟩

/-- C5: on the first active sample (at most `IDLE_PAUSE_TIME`) while
`has_reset` is set, the monitor moves `start` to `now`, clears both
flags, emits exactly `UpdateTime 0`, and is again able to emit
`NotifyReset` on a future sample above `IDLE_RESET_TIME`. -/
theorem C5_return_after_reset (st : MonitorState) (now idle : Nat)
    (hr : st.has_reset = true) (hi : idle ≤ IDLE_PAUSE_TIME) :
    (tick st now (Except.ok idle)).1 = ⟨now, false, false⟩ ∧
    (tick st now (Except.ok idle)).2 = [Event.UpdateTime 0] ∧
    ∀ now2 idle2 : Nat, IDLE_RESET_TIME < idle2 →
      Event.NotifyReset ∈
        (tick (tick st now (Except.ok idle)).1 now2 (Except.ok idle2)).2 := by
  have h1 : ¬ IDLE_RESET_TIME < idle := by
    unfold IDLE_RESET_TIME
    unfold IDLE_PAUSE_TIME at hi
    omega
  have h2 : ¬ IDLE_PAUSE_TIME < idle := Nat.not_lt.mpr hi
  have hb : BREAK_TIME ≠ 0 := by
    unfold BREAK_TIME
    omega
  have hstate : (tick st now (Except.ok idle)).1 = ⟨now, false, false⟩ := by
    simp [tick, h1, h2, hr, hb]
  refine ⟨hstate, ?_, ?_⟩
  · simp [tick, h1, h2, hr, hb]
  · intro now2 idle2 hbig
    rw [hstate]
    simp [tick, hbig]

theorem C5_return_after_reset_witness :
    ((⟨3, true, true⟩ : MonitorState).has_reset = true ∧ 1000 ≤ IDLE_PAUSE_TIME) ∧
    ((tick ⟨3, true, true⟩ 9000 (Except.ok 1000)).1 = ⟨9000, false, false⟩ ∧
    (tick ⟨3, true, true⟩ 9000 (Except.ok 1000)).2 = [Event.UpdateTime 0] ∧
    ∀ now2 idle2 : Nat, IDLE_RESET_TIME < idle2 →
      Event.NotifyReset ∈
        (tick (tick ⟨3, true, true⟩ 9000 (Except.ok 1000)).1 now2
          (Except.ok idle2)).2) :=
  ⟨⟨rfl, by decide⟩,
    C5_return_after_reset ⟨3, true, true⟩ 9000 1000 rfl (by decide)⟩

/-- C8: at startup the monitor emits exactly the single event
`UpdateTime 0` before any probe sample, and every tick with an active
sample (at most `IDLE_PAUSE_TIME`) emits an `UpdateTime` of the current
elapsed time `now - start` first. -/
theorem C8_startup_and_update (now0 : Nat) (st : MonitorState) (now idle : Nat)
    (h : idle ≤ IDLE_PAUSE_TIME) :
    (monitorInit now0).2 = [Event.UpdateTime 0] ∧
    ((tick st now (Except.ok idle)).2).head? =
      some (Event.UpdateTime (now - (tick st now (Except.ok idle)).1.start)) := by
  have h1 : ¬ IDLE_RESET_TIME < idle := by
    unfold IDLE_RESET_TIME
    unfold IDLE_PAUSE_TIME at h
    omega
  have h2 : ¬ IDLE_PAUSE_TIME < idle := Nat.not_lt.mpr h
  refine ⟨by simp [monitorInit], ?_⟩
  cases hr : st.has_reset
  · simp only [tick, if_neg h1, if_neg h2, hr]
    split_ifs <;> simp
  · simp only [tick, if_neg h1, if_neg h2, hr]
    split_ifs <;> simp

theorem C8_startup_and_update_witness :
    2000 ≤ IDLE_PAUSE_TIME ∧
    ((monitorInit 42).2 = [Event.UpdateTime 0] ∧
    ((tick ⟨100, false, true⟩ 5100 (Except.ok 2000)).2).head? =
      some (Event.UpdateTime
        (5100 - (tick ⟨100, false, true⟩ 5100 (Except.ok 2000)).1.start))) :=
  ⟨by decide, C8_startup_and_update 42 ⟨100, false, true⟩ 5100 2000 (by decide)⟩

/-- C9: `start` never moves backwards (given `start ≤ now` at the tick),
and it is set to `now` exactly at program start, on every successful
sample above `IDLE_RESET_TIME`, and on an active sample while
`has_reset` is set; in every other situation it is unchanged. -/
theorem C9_start_reassignment (st : MonitorState) (now : Nat)
    (sample : Except Int Nat) :
    (st.start ≤ now → st.start ≤ (tick st now sample).1.start) ∧
    ((tick st now sample).1.start = st.start ∨
      (tick st now sample).1.start = now) ∧
    ((tick st now sample).1.start ≠ st.start →
      (∃ i, sample = Except.ok i ∧ IDLE_RESET_TIME < i) ∨
      (∃ i, sample = Except.ok i ∧ i ≤ IDLE_PAUSE_TIME ∧
        st.has_reset = true)) ∧
    (∀ i, sample = Except.ok i → IDLE_RESET_TIME < i →
      (tick st now sample).1.start = now) ∧
    (∀ i, sample = Except.ok i → i ≤ IDLE_PAUSE_TIME → st.has_reset = true →
      (tick st now sample).1.start = now) ∧
    (monitorInit now).1.start = now := by
  refine ⟨?_, tick_start_or st now sample, ?_, ?_, ?_, rfl⟩
  · intro h
    rcases tick_start_or st now sample with he | he <;> rw [he]
    exact h
  · intro hne
    cases sample with
    | error e => exact absurd rfl hne
    | ok i =>
      by_cases h1 : IDLE_RESET_TIME < i
      · exact Or.inl ⟨i, rfl, h1⟩
      · by_cases h2 : IDLE_PAUSE_TIME < i
        · refine absurd ?_ hne
          simp [tick, h1, h2]
        · cases hr : st.has_reset
          · refine absurd ?_ hne
            simp only [tick, if_neg h1, if_neg h2, hr]
            split_ifs <;> simp_all
          · exact Or.inr ⟨i, rfl, Nat.not_lt.mp h2, rfl⟩
  · intro i hs hbig
    subst hs
    cases hr : st.has_reset <;> simp [tick, hbig, hr]
  · intro i hs hsmall hr
    subst hs
    have h1 : ¬ IDLE_RESET_TIME < i := by
      unfold IDLE_RESET_TIME
      unfold IDLE_PAUSE_TIME at hsmall
      omega
    have h2 : ¬ IDLE_PAUSE_TIME < i := Nat.not_lt.mpr hsmall
    simp only [tick, if_neg h1, if_neg h2, hr]
    split_ifs <;> simp

theorem C9_start_reassignment_witness :
    ((⟨5, false, false⟩ : MonitorState).start ≤ 17 →
      (⟨5, false, false⟩ : MonitorState).start ≤
        (tick ⟨5, false, false⟩ 17 (Except.ok 310000)).1.start) ∧
    ((tick ⟨5, false, false⟩ 17 (Except.ok 310000)).1.start =
        (⟨5, false, false⟩ : MonitorState).start ∨
      (tick ⟨5, false, false⟩ 17 (Except.ok 310000)).1.start = 17) ∧
    ((tick ⟨5, false, false⟩ 17 (Except.ok 310000)).1.start ≠
        (⟨5, false, false⟩ : MonitorState).start →
      (∃ i, (Except.ok 310000 : Except Int Nat) = Except.ok i ∧
        IDLE_RESET_TIME < i) ∨
      (∃ i, (Except.ok 310000 : Except Int Nat) = Except.ok i ∧
        i ≤ IDLE_PAUSE_TIME ∧
        (⟨5, false, false⟩ : MonitorState).has_reset = true)) ∧
    (∀ i, (Except.ok 310000 : Except Int Nat) = Except.ok i →
      IDLE_RESET_TIME < i →
      (tick ⟨5, false, false⟩ 17 (Except.ok 310000)).1.start = 17) ∧
    (∀ i, (Except.ok 310000 : Except Int Nat) = Except.ok i →
      i ≤ IDLE_PAUSE_TIME →
      (⟨5, false, false⟩ : MonitorState).has_reset = true →
      (tick ⟨5, false, false⟩ 17 (Except.ok 310000)).1.start = 17) ∧
    (monitorInit 17).1.start = 17 :=
  C9_start_reassignment ⟨5, false, false⟩ 17 (Except.ok 310000)

/-- C10: when `GetLastInputInfo` succeeds, the returned idle duration is
the difference `tick_count - dwTime` taken modulo `2^32` milliseconds:
it is the true difference when no wrap occurred, and the large wrapped
value `2^32 - (dwTime - tick_count)` when the tick counter has wrapped
past the recorded last-input tick. -/
theorem C10_idle_time_wrap (result : Int) (tick_count dwTime : Nat)
    (hr : result ≠ 0) (ht : tick_count < UINT32_MOD) (hd : dwTime < UINT32_MOD) :
    get_idle_time result tick_count dwTime =
      Except.ok ((((tick_count : Int) - (dwTime : Int)) %
        (UINT32_MOD : Int)).toNat) ∧
    (dwTime ≤ tick_count →
      get_idle_time result tick_count dwTime =
        Except.ok (tick_count - dwTime)) ∧
    (tick_count < dwTime →
      get_idle_time result tick_count dwTime =
        Except.ok (UINT32_MOD - (dwTime - tick_count))) := by
  unfold get_idle_time UINT32_MOD
  unfold UINT32_MOD at ht hd
  rw [if_neg hr]
  refine ⟨?_, ?_, ?_⟩
  · simp only [Except.ok.injEq]
    omega
  · intro hle
    simp only [Except.ok.injEq]
    omega
  · intro hlt
    simp only [Except.ok.injEq]
    omega

/-- Helper: while `has_reset` is already set, a run of samples above
`IDLE_RESET_TIME` emits no `NotifyReset` at all and keeps `has_reset`
set. -/
theorem runFrom_resetSamples_hasReset (st : MonitorState)
    (inputs : List (Nat × Except Int Nat))
    (hr : st.has_reset = true)
    (hall : ∀ p ∈ inputs, resetSample p.2 = true) :
    countReset (runFrom st inputs).2 = 0 ∧
    (runFrom st inputs).1.has_reset = true := by
  induction inputs generalizing st with
  | nil => exact ⟨rfl, hr⟩
  | cons p rest ih =>
    have hp := hall p (List.mem_cons_self p rest)
    cases hs : p.2 with
    | error e => simp [resetSample, hs] at hp
    | ok i =>
      rw [hs] at hp
      simp only [resetSample, decide_eq_true_eq] at hp
      have htick : tick st p.1 p.2 = ({ st with start := p.1 }, []) := by
        rw [hs]
        simp [tick, hp, hr]
      have ihr := ih { st with start := p.1 } hr
        (fun q hq => hall q (List.mem_cons_of_mem p hq))
      simp only [runFrom, htick, List.nil_append]
      exact ihr

/-- C2 fails on the code: two excursions separated only by a sample in
the grace band `(IDLE_PAUSE_TIME, IDLE_RESET_TIME]` produce a single
`NotifyReset`.  From the fresh start state, on the sample sequence
310s, 200s, 310s the second excursion (the third sample, which follows
the non-excursion 200s sample) emits nothing, and the whole run emits
one `NotifyReset`, not two. -/
theorem C2_distinct_excursion_counterexample :
    resetSample (Except.ok 310000) = true ∧
    frozenSample (Except.ok 200000) = true ∧
    (tick (runFrom ⟨0, false, false⟩
        ([(1000, Except.ok 310000), (2000, Except.ok 200000)] :
          List (Nat × Except Int Nat))).1
      3000 (Except.ok 310000)).2 = [] ∧
    countReset (runFrom ⟨0, false, false⟩
      ([(1000, Except.ok 310000), (2000, Except.ok 200000),
        (3000, Except.ok 310000)] : List (Nat × Except Int Nat))).2 = 1 ∧
    ¬ countReset (runFrom ⟨0, false, false⟩
      ([(1000, Except.ok 310000), (2000, Except.ok 200000),
        (3000, Except.ok 310000)] : List (Nat × Except Int Nat))).2 = 2 := by
  decide

/-- C2 amended: a nonempty run of samples above `IDLE_RESET_TIME`
(an excursion) emits exactly one `NotifyReset` when `has_reset` is
false as it begins, and none when `has_reset` is still set (as it is
when the previous excursion was separated from this one only by
non-active samples); in either case `has_reset` is set afterwards. -/
theorem C2_one_reset_per_armed_excursion (st : MonitorState)
    (inputs : List (Nat × Except Int Nat))
    (hne : inputs ≠ [])
    (hall : ∀ p ∈ inputs, resetSample p.2 = true) :
    countReset (runFrom st inputs).2 = (if st.has_reset = true then 0 else 1) ∧
    (runFrom st inputs).1.has_reset = true := by
  cases inputs with
  | nil => exact absurd rfl hne
  | cons p rest =>
    have hp := hall p (List.mem_cons_self p rest)
    have hrest := fun q hq => hall q (List.mem_cons_of_mem p hq)
    cases hs : p.2 with
    | error e => simp [resetSample, hs] at hp
    | ok i =>
      rw [hs] at hp
      simp only [resetSample, decide_eq_true_eq] at hp
      rcases Bool.eq_false_or_eq_true st.has_reset with hr | hr
      · have htick : tick st p.1 p.2 = ({ st with start := p.1 }, []) := by
          rw [hs]
          simp [tick, hp, hr]
        have ihr := runFrom_resetSamples_hasReset { st with start := p.1 }
          rest hr hrest
        simp only [runFrom, htick, List.nil_append]
        rw [if_pos hr]
        exact ihr
      · have htick : tick st p.1 p.2 =
            ({ st with has_reset := true, start := p.1 },
              [Event.NotifyReset, Event.UpdateTime 0]) := by
          rw [hs]
          simp [tick, hp, hr]
        have ihr := runFrom_resetSamples_hasReset
          { st with has_reset := true, start := p.1 } rest rfl hrest
        simp only [runFrom, htick]
        refine ⟨?_, ihr.2⟩
        rw [countReset_append, ihr.1, if_neg]
        · rfl
        · rw [hr]
          exact Bool.false_ne_true

theorem C2_one_reset_per_armed_excursion_witness :
    (([(1000, Except.ok 310000), (2000, Except.ok 400000)] :
        List (Nat × Except Int Nat)) ≠ [] ∧
      ∀ p ∈ ([(1000, Except.ok 310000), (2000, Except.ok 400000)] :
        List (Nat × Except Int Nat)), resetSample p.2 = true) ∧
    (countReset (runFrom ⟨0, false, false⟩
        ([(1000, Except.ok 310000), (2000, Except.ok 400000)] :
          List (Nat × Except Int Nat))).2 =
      (if (⟨0, false, false⟩ : MonitorState).has_reset = true then 0 else 1) ∧
    (runFrom ⟨0, false, false⟩
        ([(1000, Except.ok 310000), (2000, Except.ok 400000)] :
          List (Nat × Except Int Nat))).1.has_reset = true) :=
  ⟨⟨by simp, by decide⟩,
    C2_one_reset_per_armed_excursion ⟨0, false, false⟩ _ (by simp) (by decide)⟩

/-- Helper: once `has_break` is set and `has_reset` is clear, a run
containing no sample above `IDLE_RESET_TIME` emits no `NotifyBreak` and
leaves the state unchanged. -/
theorem runFrom_hasBreak_noMore (st : MonitorState)
    (inputs : List (Nat × Except Int Nat))
    (hb : st.has_break = true) (hr : st.has_reset = false)
    (hnr : ∀ p ∈ inputs, noResetSample p.2 = true) :
    (runFrom st inputs).1 = st ∧ countBreak (runFrom st inputs).2 = 0 := by
  induction inputs with
  | nil => exact ⟨rfl, rfl⟩
  | cons p rest ih =>
    have hp := hnr p (List.mem_cons_self p rest)
    have ihr := ih (fun q hq => hnr q (List.mem_cons_of_mem p hq))
    have htick : ∃ evs, tick st p.1 p.2 = (st, evs) ∧ countBreak evs = 0 := by
      cases hs : p.2 with
      | error e => exact ⟨[], rfl, rfl⟩
      | ok i =>
        rw [hs] at hp
        simp only [noResetSample, decide_eq_true_eq] at hp
        have h1 : ¬ IDLE_RESET_TIME < i := Nat.not_lt.mpr hp
        by_cases h2 : IDLE_PAUSE_TIME < i
        · exact ⟨[], by simp [tick, h1, h2], rfl⟩
        · refine ⟨[Event.UpdateTime (p.1 - st.start)], ?_, rfl⟩
          simp only [tick, if_neg h1, if_neg h2, hr]
          split_ifs with hbig <;> simp_all
    obtain ⟨evs, htick, hcnt⟩ := htick
    simp only [runFrom, htick]
    refine ⟨ihr.1, ?_⟩
    rw [countBreak_append, hcnt, ihr.2]

/-- Helper: from a state with `has_reset` clear, a run of active
samples whose clock values all stay strictly below `BREAK_TIME` ahead
of `start` emits no `NotifyBreak` and leaves the state unchanged. -/
theorem runFrom_active_belowBreak (st : MonitorState)
    (inputs : List (Nat × Except Int Nat))
    (hr : st.has_reset = false)
    (hact : ∀ p ∈ inputs, isActiveSample p.2 = true)
    (hlt : ∀ p ∈ inputs, p.1 - st.start < BREAK_TIME) :
    (runFrom st inputs).1 = st ∧ countBreak (runFrom st inputs).2 = 0 := by
  induction inputs with
  | nil => exact ⟨rfl, rfl⟩
  | cons p rest ih =>
    have hp := hact p (List.mem_cons_self p rest)
    have hplt := hlt p (List.mem_cons_self p rest)
    have ihr := ih (fun q hq => hact q (List.mem_cons_of_mem p hq))
      (fun q hq => hlt q (List.mem_cons_of_mem p hq))
    have htick : tick st p.1 p.2 = (st, [Event.UpdateTime (p.1 - st.start)]) := by
      cases hs : p.2 with
      | error e => simp [isActiveSample, hs] at hp
      | ok i =>
        rw [hs] at hp
        simp only [isActiveSample, decide_eq_true_eq] at hp
        have h1 : ¬ IDLE_RESET_TIME < i := by
          unfold IDLE_RESET_TIME
          unfold IDLE_PAUSE_TIME at hp
          omega
        have h2 : ¬ IDLE_PAUSE_TIME < i := Nat.not_lt.mpr hp
        simp only [tick, if_neg h1, if_neg h2, hr]
        simp only [Bool.false_eq_true, if_false]
        rw [if_neg (Nat.not_le.mpr hplt)]
    simp only [runFrom, htick]
    refine ⟨ihr.1, ?_⟩
    rw [countBreak_append, ihr.2]
    rfl

/-- C3: over any stretch with no sample above `IDLE_RESET_TIME`,
starting from a fresh-session state (both flags clear), the monitor
emits exactly one `NotifyBreak` if some active tick observes elapsed
time `now - start` at or above `BREAK_TIME`, and none otherwise — no
matter how many further active ticks at or above the threshold occur. -/
theorem C3_one_break_per_session (st : MonitorState)
    (inputs : List (Nat × Except Int Nat))
    (hr : st.has_reset = false) (hb : st.has_break = false)
    (hnr : ∀ p ∈ inputs, noResetSample p.2 = true) :
    countBreak (runFrom st inputs).2 =
      (if inputs.any (reachesBreakFrom st.start) then 1 else 0) := by
  induction inputs with
  | nil => rfl
  | cons p rest ih =>
    have hp := hnr p (List.mem_cons_self p rest)
    have hrest := fun q hq => hnr q (List.mem_cons_of_mem p hq)
    cases hs : p.2 with
    | error e =>
      have htick : tick st p.1 p.2 = (st, []) := by rw [hs]; rfl
      have hhead : reachesBreakFrom st.start p = false := by
        simp [reachesBreakFrom, isActiveSample, hs]
      simp only [runFrom, htick, List.nil_append, List.any_cons, hhead,
        Bool.false_or]
      exact ih hrest
    | ok i =>
      rw [hs] at hp
      simp only [noResetSample, decide_eq_true_eq] at hp
      have h1 : ¬ IDLE_RESET_TIME < i := Nat.not_lt.mpr hp
      by_cases h2 : IDLE_PAUSE_TIME < i
      · have htick : tick st p.1 p.2 = (st, []) := by
          rw [hs]
          simp [tick, h1, h2]
        have hhead : reachesBreakFrom st.start p = false := by
          simp [reachesBreakFrom, isActiveSample, hs, Nat.not_le.mpr h2]
        simp only [runFrom, htick, List.nil_append, List.any_cons, hhead,
          Bool.false_or]
        exact ih hrest
      · by_cases hbig : BREAK_TIME ≤ p.1 - st.start
        · have htick : tick st p.1 p.2 =
              ({ st with has_break := true },
                [Event.UpdateTime (p.1 - st.start), Event.NotifyBreak]) := by
            rw [hs]
            simp only [tick, if_neg h1, if_neg h2, hr]
            simp only [Bool.false_eq_true, if_false]
            rw [if_pos hbig, if_neg (by rw [hb]; exact Bool.false_ne_true)]
            rw [hr]
          have hhead : reachesBreakFrom st.start p = true := by
            simp [reachesBreakFrom, isActiveSample, hs, Nat.not_lt.mp h2, hbig]
          have hrun := runFrom_hasBreak_noMore { st with has_break := true }
            rest rfl hr hrest
          simp only [runFrom, htick, List.any_cons, hhead, Bool.true_or]
          rw [countBreak_append, hrun.2]
          rfl
        · have htick : tick st p.1 p.2 =
              (st, [Event.UpdateTime (p.1 - st.start)]) := by
            rw [hs]
            simp only [tick, if_neg h1, if_neg h2, hr]
            simp only [Bool.false_eq_true, if_false]
            rw [if_neg hbig]
          have hhead : reachesBreakFrom st.start p = false := by
            simp [reachesBreakFrom, isActiveSample, hs, hbig]
          simp only [runFrom, htick, List.any_cons, hhead, Bool.false_or]
          rw [countBreak_append, ih hrest,
            show countBreak [Event.UpdateTime (p.1 - st.start)] = 0 from rfl,
            Nat.zero_add]

theorem C3_one_break_per_session_witness :
    ((⟨0, false, false⟩ : MonitorState).has_reset = false ∧
      (⟨0, false, false⟩ : MonitorState).has_break = false ∧
      ∀ p ∈ ([(2700000, Except.ok 0), (2800000, Except.ok 1000),
              (2900000, Except.error 3)] : List (Nat × Except Int Nat)),
        noResetSample p.2 = true) ∧
    countBreak (runFrom ⟨0, false, false⟩
      ([(2700000, Except.ok 0), (2800000, Except.ok 1000),
        (2900000, Except.error 3)] : List (Nat × Except Int Nat))).2 =
      (if ([(2700000, Except.ok 0), (2800000, Except.ok 1000),
            (2900000, Except.error 3)] : List (Nat × Except Int Nat)).any
          (reachesBreakFrom (⟨0, false, false⟩ : MonitorState).start)
        then 1 else 0) :=
  ⟨⟨rfl, rfl, by decide⟩,
    C3_one_break_per_session ⟨0, false, false⟩ _ rfl rfl (by decide)⟩

/-- C4: a run of active samples (all at most `IDLE_PAUSE_TIME`) whose
ticks all happen after `start` and all observe elapsed time strictly
below `BREAK_TIME` never emits `NotifyBreak`. -/
theorem C4_no_break_below_threshold (st : MonitorState)
    (inputs : List (Nat × Except Int Nat))
    (hact : ∀ p ∈ inputs, isActiveSample p.2 = true)
    (hstart : ∀ p ∈ inputs, st.start ≤ p.1)
    (hlt : ∀ p ∈ inputs, p.1 - st.start < BREAK_TIME) :
    countBreak (runFrom st inputs).2 = 0 := by
  cases hr : st.has_reset with
  | false => exact (runFrom_active_belowBreak st inputs hr hact hlt).2
  | true =>
    cases inputs with
    | nil => rfl
    | cons p rest =>
      have hp := hact p (List.mem_cons_self p rest)
      cases hs : p.2 with
      | error e => simp [isActiveSample, hs] at hp
      | ok i =>
        rw [hs] at hp
        simp only [isActiveSample, decide_eq_true_eq] at hp
        have h1 : ¬ IDLE_RESET_TIME < i := by
          unfold IDLE_RESET_TIME
          unfold IDLE_PAUSE_TIME at hp
          omega
        have h2 : ¬ IDLE_PAUSE_TIME < i := Nat.not_lt.mpr hp
        have hb0 : BREAK_TIME ≠ 0 := by
          unfold BREAK_TIME
          omega
        have htick : tick st p.1 p.2 =
            (⟨p.1, false, false⟩, [Event.UpdateTime 0]) := by
          rw [hs]
          simp [tick, h1, h2, hr, hb0]
        have hrun := runFrom_active_belowBreak ⟨p.1, false, false⟩ rest rfl
          (fun q hq => hact q (List.mem_cons_of_mem p hq))
          (fun q hq => by
            have h3 := hlt q (List.mem_cons_of_mem p hq)
            have h4 := hstart p (List.mem_cons_self p rest)
            have h5 : q.1 - p.1 ≤ q.1 - st.start := Nat.sub_le_sub_left h4 q.1
            exact Nat.lt_of_le_of_lt h5 h3)
        simp only [runFrom, htick]
        rw [countBreak_append, hrun.2]
        rfl

theorem C4_no_break_below_threshold_witness :
    ((∀ p ∈ ([(1000, Except.ok 0), (2000, Except.ok 500)] :
        List (Nat × Except Int Nat)), isActiveSample p.2 = true) ∧
      (∀ p ∈ ([(1000, Except.ok 0), (2000, Except.ok 500)] :
        List (Nat × Except Int Nat)),
        (⟨0, true, false⟩ : MonitorState).start ≤ p.1) ∧
      (∀ p ∈ ([(1000, Except.ok 0), (2000, Except.ok 500)] :
        List (Nat × Except Int Nat)),
        p.1 - (⟨0, true, false⟩ : MonitorState).start < BREAK_TIME)) ∧
    countBreak (runFrom ⟨0, true, false⟩
      ([(1000, Except.ok 0), (2000, Except.ok 500)] :
        List (Nat × Except Int Nat))).2 = 0 :=
  ⟨⟨by decide, by decide, by decide⟩,
    C4_no_break_below_threshold ⟨0, true, false⟩ _ (by decide) (by decide)
      (by decide)⟩

theorem C10_idle_time_wrap_witness :
    ((1 : Int) ≠ 0 ∧ 5000 < UINT32_MOD ∧ 4294000000 < UINT32_MOD) ∧
    (get_idle_time 1 5000 4294000000 =
      Except.ok ((((5000 : Nat) : Int) - ((4294000000 : Nat) : Int)) %
        (UINT32_MOD : Int)).toNat ∧
    (4294000000 ≤ 5000 →
      get_idle_time 1 5000 4294000000 = Except.ok (5000 - 4294000000)) ∧
    (5000 < 4294000000 →
      get_idle_time 1 5000 4294000000 =
        Except.ok (UINT32_MOD - (4294000000 - 5000)))) :=
  ⟨⟨by decide, by decide, by decide⟩,
    C10_idle_time_wrap 1 5000 4294000000 (by decide) (by decide) (by decide)⟩

end Pauza
